import Mathlib

/-!
Verification of the service-discovery and request-dispatch resolution logic of
the ePO DXL JavaScript client (`lib/epo-client.js`, `lib/output-format.js`).

The JavaScript source is shallowly embedded: the callback-passing code is
modelled as pure functions from the client's private state and from the two
registry-query outcomes to the new state plus the value each callback would
receive.  JavaScript strings are modelled as Lean `String` (lists of
characters); a string is "truthy" exactly when it is non-empty, and `undefined`
string fields are represented by the empty string (the two are observationally
equivalent in this code: every use is a truthiness test, and an id never
reaches the wire while falsy).  JavaScript arrays are Lean lists; an absent
`requestChannels` field behaves exactly like the empty list, so both are
modelled as `[]`.
-/

/-! ### Fixed topic and prefix constants (`lib/epo-client.js`, lines 12-38) -/

/-- The type of the ePO DXL remote service registered with the fabric. -/
def dxlEpoRemoteServiceType : String := "/mcafee/service/epo/remote"

/-- Lead segment of ePO DXL remote service request topics
(`DXL_EPO_REMOTE_REQUEST_PREFIX` in the source). -/
def dxlEpoRemoteRequestLead : String := dxlEpoRemoteServiceType ++ "/"

/-- The type of the ePO DXL commands service registered with the fabric. -/
def dxlEpoCommandsServiceType : String := "/mcafee/service/epo/commands"

/-- Lead segment of ePO DXL commands service request topics
(`DXL_EPO_COMMANDS_REQUEST_PREFIX` in the source). -/
def dxlEpoCommandsRequestLead : String := "/mcafee/service/epo/command/"

/-- The segment which appears before the remote command name in a request to
the ePO DXL commands service (`DXL_EPO_COMMANDS_REQUEST_COMMAND_PREFIX`). -/
def dxlEpoCommandsRequestCommandLead : String := "/remote/"

/-- The default DXL topic to listen to for ePO threat event messages. -/
def epoThreatEventTopic : String := "/mcafee/event/epo/threat/response"

/-- The name of the ePO help remote command. -/
def epoHelpCommand : String := "core.help"

/-- JSON output format marker for the ePO remote (legacy) command envelope. -/
def outputFormatJson : String := "json"

/-! ### Command parameter objects

Command parameters are a mapping from strings to JSON-compatible values
(spec, section 3, CommandInvocation).  Every function under verification
treats the parameters object as opaque — it is only ever handed to the
external JSON codec — so the value type is immaterial to the claims and
values are modelled as strings.  The empty parameters object `\x7b\x7d` is
the empty list. -/

/-- A command parameters object: a mapping from parameter names to values. -/
abbrev Params := List (String × String)

/-! ### Service descriptors and registry query outcomes -/

/-- One registered service instance as reported by the registry query.
`metaDataEpoGuid` is `some g` when the descriptor has a `metaData` map with an
`epoGuid` entry `g` (absence of the map and absence of the field coincide in
the embedding, as every use in the source is the single truthiness test
`service.metaData && service.metaData.epoGuid`). -/
structure ServiceDescriptor where
  metaDataEpoGuid : Option String
  requestChannels : List String
deriving DecidableEq

/-- Outcome of one registry query over the DXL fabric, as seen by the response
handler in `lookupEpoUniqueIdsForServiceType`: the transport either fails
(response is null), or delivers a response whose JSON body fails to decode, or
delivers a decodable body with a (possibly empty) list of service
descriptors.  An absent `services` map behaves like an empty descriptor
list. -/
inductive RegistryResponse where
  | failure (msg : String)
  | malformed (msg : String)
  | ok (services : List ServiceDescriptor)
deriving DecidableEq

/-- The registry environment for one resolution attempt: the outcome each of
the two service-type queries would produce. -/
structure Registry where
  remote : RegistryResponse
  commands : RegistryResponse
deriving DecidableEq

/-- Append `epoId` unless already present: the `if (epoIds.indexOf(epoId) < 0)
epoIds.push(epoId)` idiom used by both extraction callbacks and by the merge
in `lookupEpoUniqueIdentifiers`. -/
def pushUnique (epoIds : List String) (epoId : String) : List String :=
  if epoIds.contains epoId then epoIds else epoIds ++ [epoId]

/-- Identifier extraction for the commands variant (the callback passed by
`lookupEpoCommandsServiceUniqueIds`, lines 435-442): for each descriptor with
a truthy `metaData.epoGuid`, push the guid if not already present. -/
def extractCommandsIds (services : List ServiceDescriptor) : List String :=
  services.foldl
    (fun epoIds service =>
      match service.metaDataEpoGuid with
      | some epoId => if epoId = "" then epoIds else pushUnique epoIds epoId
      | none => epoIds)
    []

/-- Identifier extraction for the remote variant (the callback passed by
`lookupEpoRemoteServiceUniqueIds`, lines 464-476): for each advertised request
channel starting with the remote request lead, push the remainder of the
channel after that lead if not already present. -/
def extractRemoteIds (services : List ServiceDescriptor) : List String :=
  services.foldl
    (fun epoIds service =>
      service.requestChannels.foldl
        (fun ids channel =>
          if dxlEpoRemoteRequestLead.data.isPrefixOf channel.data then
            pushUnique ids ⟨channel.data.drop dxlEpoRemoteRequestLead.data.length⟩
          else ids)
        epoIds)
    []

/-- What `lookupEpoUniqueIdsForServiceType` (lines 386-416) hands to its
`doneCallback`, given the registry outcome and the extraction function of the
variant: `(error, epoIds)`.  On transport failure the id list is null; on a
malformed body the list was already initialised to `[]` before the decode
threw, so an error is delivered together with an empty list.  (The generic
push of the extraction callback's return value at line 405 is dead code: both
extraction callbacks return `undefined`, so only the pushes inside the
callbacks, embedded in `extractCommandsIds` / `extractRemoteIds`, occur.) -/
def lookupIdsForServiceType (resp : RegistryResponse)
    (extract : List ServiceDescriptor → List String) :
    Option String × Option (List String) :=
  match resp with
  | .failure msg => (some msg, none)
  | .malformed msg => (some msg, some [])
  | .ok services => (none, some (extract services))

/-- Outcome of `lookupEpoCommandsServiceUniqueIds` for a given registry
outcome. -/
def lookupEpoCommandsServiceUniqueIds (resp : RegistryResponse) :
    Option String × Option (List String) :=
  lookupIdsForServiceType resp extractCommandsIds

/-- Outcome of `lookupEpoRemoteServiceUniqueIds` for a given registry
outcome. -/
def lookupEpoRemoteServiceUniqueIds (resp : RegistryResponse) :
    Option String × Option (List String) :=
  lookupIdsForServiceType resp extractRemoteIds

/-- Lexicographic comparison of character lists by code value: the comparison
the JavaScript default `Array.prototype.sort` comparator applies to the
identifier strings. -/
def lexLe : List Char → List Char → Bool
  | [], _ => true
  | _ :: _, [] => false
  | a :: as, b :: bs =>
    if a.toNat < b.toNat then true
    else if b.toNat < a.toNat then false
    else lexLe as bs

/-- Ascending lexicographic order on strings, as a Boolean comparator. -/
def stringLe (a b : String) : Bool :=
  lexLe a.data b.data

/-- The sort relation used to model `Array.prototype.sort()` on identifier
strings. -/
def stringLeRel (a b : String) : Prop :=
  stringLe a b = true

instance stringLeRelDecidable : DecidableRel stringLeRel :=
  fun a b => instDecidableEqBool (stringLe a b) true

/-- The merged, deduplicated, sorted identifier list together with the
variant hint, as computed by the module-level `lookupEpoUniqueIdentifiers`
(lines 495-518): the remote lookup runs first; if its id list is null the
error propagates; otherwise the commands lookup runs; remote ids not already
among the commands ids are appended, the merged list is sorted ascending, and
the hint (third callback argument) is true exactly when the remote id list is
empty.  The triple is `(error, mergedIds, variantHint)`.  The JavaScript
`Array.prototype.sort` default comparator orders strings lexicographically
(`stringLeRel`); any correct sort yields the same list, modelled here by
insertion sort. -/
def lookupEpoUniqueIdentifiers (reg : Registry) :
    Option String × Option (List String) × Option Bool :=
  match lookupEpoRemoteServiceUniqueIds reg.remote with
  | (error, none) => (error, none, none)
  | (_, some epoRemoteServiceIds) =>
    match lookupEpoCommandsServiceUniqueIds reg.commands with
    | (error, none) => (error, none, none)
    | (error, some epoServiceIds) =>
      let merged := epoRemoteServiceIds.foldl pushUnique epoServiceIds
      (error, some (List.insertionSort stringLeRel merged),
        some epoRemoteServiceIds.isEmpty)

/-! ### Output formats (`lib/output-format.js`, module version with the
binary, string and object constants referenced by `lib/epo-client.js`) -/

namespace OutputFormat

/-- Return response payload as binary bytes. -/
def binaryFormat : String := "binary"

/-- Return response payload as a string. -/
def stringFormat : String := "string"

/-- Return response payload as a JavaScript object. -/
def objectFormat : String := "object"

/-- The recognized output format values. -/
def recognized : List String := [binaryFormat, stringFormat, objectFormat]

/-- The `validate` function: throws a `TypeError` (modelled as `Except.error`)
when the format is not among the recognized values. -/
def validate (outputFormat : String) : Except String Unit :=
  if recognized.contains outputFormat then Except.ok ()
  else Except.error ("Invalid output format: " ++ outputFormat)

end OutputFormat

/-! ### Command-name dot replacement

`_invokeEpoCommandsService` builds its topic with
`commandName.replace('.', '/')`.  The JavaScript `String.prototype.replace`
with a plain string pattern replaces only the FIRST occurrence of the
pattern. -/

/-- Replace the first occurrence of `target` in a character list. -/
def replaceFirstChar (target replacement : Char) : List Char → List Char
  | [] => []
  | c :: cs =>
    if c = target then replacement :: cs
    else c :: replaceFirstChar target replacement cs

/-- The embedding of `commandName.replace('.', '/')`: the first `.` (if any)
becomes `/`. -/
def replaceFirstDot (s : String) : String :=
  ⟨replaceFirstChar '.' '/' s.data⟩

/-- Modelled from the spec wording of the original claim: the command name
with EVERY `.` replaced by `/`.  Used only to compare the spec's wording with
the source behaviour. -/
def specEveryDotToSlash (s : String) : String :=
  ⟨s.data.map (fun c => if c = '.' then '/' else c)⟩

/-- Modelled from the amended wording: the command name with the FIRST `.`
(when one exists) replaced by `/`, written independently of the source
recursion: the characters before the first dot, then a slash, then the
characters after the first dot. -/
def specFirstDotToSlash (s : String) : String :=
  if s.data.contains '.' then
    ⟨s.data.takeWhile (fun c => c ≠ '.') ++
      '/' :: ((s.data.dropWhile (fun c => c ≠ '.')).drop 1)⟩
  else s

/-! ### Client state (`EpoClient` constructor, lines 87-123) -/

/-- The private mutable fields of an `EpoClient` instance.  `epoUniqueId`
is the empty string when no identifier is known (the constructor's
`epoUniqueId` argument being `undefined` or the empty string are
observationally equivalent: each use of the field is a truthiness test and
the id never reaches a request topic while falsy). -/
structure ClientState where
  epoIdSearchStatus : String
  epoUniqueId : String
  useEpoCommandsService : Bool
  epoServiceDetermined : Bool
deriving DecidableEq

/-- The state of a freshly constructed `EpoClient` with the given
`epoUniqueId` constructor argument. -/
def initClient (epoUniqueId : String) : ClientState :=
  { epoIdSearchStatus := "ePO unique identifier not yet determined"
    epoUniqueId := epoUniqueId
    useEpoCommandsService := true
    epoServiceDetermined := false }

/-- Error message produced when no service is found during automatic
resolution (line 185-186). -/
def noServicesMsg : String :=
  "No ePO DXL services are registered with the DXL fabric"

/-- Error message produced when several services are found during automatic
resolution (lines 192-196); the JavaScript string concatenation of the array
joins its elements with commas. -/
def multipleServicesMsg (epoUniqueIds : List String) : String :=
  "Multiple ePO DXL services are registered with the DXL fabric" ++
    " (" ++ String.intercalate "," epoUniqueIds ++ ")." ++
    " A specific ePO unique identifier must be specified."

/-- Error message produced when an explicitly supplied identifier matches no
service of either variant (lines 231-232). -/
def idNotFoundMsg (epoUniqueId : String) : String :=
  "No ePO DXL services are registered " ++
    "with the DXL fabric for id: " ++ epoUniqueId

/-- The `_getEpoId` callback logic (lines 179-204): given the triple the
module-level `lookupEpoUniqueIdentifiers` delivers, switch on the number of
merged identifiers (zero: no-services error; one: record it as the client's
id, keeping any error already delivered alongside the list; more: ambiguity
error), record the search status, and pass `(error, useEpoCommandsService)`
on.  Returns the updated state together with that pair. -/
def getEpoId (st : ClientState) (reg : Registry) :
    ClientState × Option String × Option Bool :=
  match lookupEpoUniqueIdentifiers reg with
  | (error0, idsOpt, useCommandsOpt) =>
    let idError : Option String × String :=
      match idsOpt with
      | none => (error0, st.epoUniqueId)
      | some epoUniqueIds =>
        match epoUniqueIds with
        | [] => (some noServicesMsg, st.epoUniqueId)
        | [x] => (error0, x)
        | _ => (some (multipleServicesMsg epoUniqueIds), st.epoUniqueId)
    let error := idError.1
    let status := match error with
      | some e => e
      | none => "ePO id found"
    ({ st with epoUniqueId := idError.2, epoIdSearchStatus := status },
      error, useCommandsOpt)

/-- The `_isEpoUniqueIdForCommandsService` logic (lines 221-247): consult the
remote lookup first; a hit resolves to the remote variant (second component
`false`); otherwise consult the commands lookup: a hit resolves to the
commands variant (`true`), a miss produces the not-found error.  Lookup
failures propagate with a `false` second component.  (A commands outcome with
no error and no id list cannot occur; the source would fault there, and the
embedding returns the same `(error, false)` shape.) -/
def isEpoUniqueIdForCommandsService (reg : Registry) (epoUniqueId : String) :
    Option String × Bool :=
  match lookupEpoRemoteServiceUniqueIds reg.remote with
  | (error, some epoIds) =>
    if epoIds.contains epoUniqueId then (error, false)
    else
      match lookupEpoCommandsServiceUniqueIds reg.commands with
      | (some e, _) => (some e, false)
      | (none, some cmdIds) =>
        if cmdIds.contains epoUniqueId then (none, true)
        else (some (idNotFoundMsg epoUniqueId), false)
      | (none, none) => (none, false)
  | (error, none) => (error, false)

/-- The `_determineService` logic (lines 148-168): with a truthy constructed
identifier, classify it via `_isEpoUniqueIdForCommandsService`; otherwise
resolve automatically via `_getEpoId`.  On success (`setServiceInfoFunction`
with no error) the determined flag is set and the variant recorded; the
callback receives the error, returned here as the second component. -/
def determineService (st : ClientState) (reg : Registry) :
    ClientState × Option String :=
  if st.epoUniqueId = "" then
    match getEpoId st reg with
    | (st1, none, useCommandsOpt) =>
      ({ st1 with
          epoServiceDetermined := true
          useEpoCommandsService :=
            useCommandsOpt.getD st1.useEpoCommandsService }, none)
    | (st1, some e, _) => (st1, some e)
  else
    match isEpoUniqueIdForCommandsService reg st.epoUniqueId with
    | (none, useCommands) =>
      ({ st with
          epoServiceDetermined := true
          useEpoCommandsService := useCommands }, none)
    | (some e, _) => (st, some e)

/-! ### Command dispatch (`_invokeEpoService` and friends, lines 264-362) -/

/-- The body of a DXL command request: either the parameters object encoded
directly (commands service), or the legacy envelope with `command`, `output`
and `params` fields (remote service). -/
inductive Payload where
  | raw (params : Params)
  | envelope (command : String) (output : String) (params : Params)
deriving DecidableEq

/-- A request handed to the fabric, plus the output format the client retains
to select how the eventual response payload is decoded.  The wire request is
only the topic and payload; `outputFormat` never leaves the client. -/
structure DispatchedRequest where
  topic : String
  payload : Payload
  outputFormat : String
deriving DecidableEq

/-- What one `runCommand` call delivers: either a request is sent over the
fabric, or no request is sent and the response callback receives an error. -/
inductive RunOutcome where
  | dispatched (req : DispatchedRequest)
  | errorCallback (msg : String)
deriving DecidableEq

/-- The `_invokeEpoService` guard (lines 264-296): with a truthy unique id the
request goes out (response decoding, selected later by `outputFormat`, is the
only further client-side step); with a falsy id the callback receives an error
carrying the id-search status text. -/
def invokeEpoService (st : ClientState) (requestTopic : String)
    (payload : Payload) (outputFormat : String) : RunOutcome :=
  if st.epoUniqueId = "" then .errorCallback st.epoIdSearchStatus
  else .dispatched ⟨requestTopic, payload, outputFormat⟩

/-- The `_invokeEpoCommandsService` request construction (lines 314-323):
topic is the commands lead, the unique id, the `/remote/` segment and the
command name with its first dot replaced; the payload is the parameters
object itself. -/
def invokeEpoCommandsService (st : ClientState) (commandName : String)
    (outputFormat : String) (params : Params) : RunOutcome :=
  invokeEpoService st
    (dxlEpoCommandsRequestLead ++ st.epoUniqueId ++
      dxlEpoCommandsRequestCommandLead ++ replaceFirstDot commandName)
    (.raw params) outputFormat

/-- The `_invokeEpoRemoteService` request construction (lines 341-352): topic
is the remote lead plus the unique id; the payload is the legacy envelope
whose `output` field is always the JSON marker. -/
def invokeEpoRemoteService (st : ClientState) (commandName : String)
    (outputFormat : String) (params : Params) : RunOutcome :=
  invokeEpoService st (dxlEpoRemoteRequestLead ++ st.epoUniqueId)
    (.envelope commandName outputFormatJson params) outputFormat

/-- The `_runCommand` variant selection (lines 354-362). -/
def runCommandInner (st : ClientState) (commandName : String)
    (outputFormat : String) (params : Params) : RunOutcome :=
  if st.useEpoCommandsService then
    invokeEpoCommandsService st commandName outputFormat params
  else
    invokeEpoRemoteService st commandName outputFormat params

/-- The output format selection at the top of `runCommand` (lines 659-664):
a truthy `options.outputFormat` is validated (an unrecognized value throws a
`TypeError`, modelled as `Except.error`); a falsy one — absent or the empty
string — defaults to the object format. -/
def selectOutputFormat (outputFormatOpt : Option String) :
    Except String String :=
  match outputFormatOpt with
  | some s =>
    if s = "" then Except.ok OutputFormat.objectFormat
    else
      match OutputFormat.validate s with
      | .ok _ => Except.ok s
      | .error e => Except.error e
  | none => Except.ok OutputFormat.objectFormat

/-- The public `runCommand` (lines 653-679), for a call whose options carry a
response callback, optional parameters (defaulting to the empty object) and
an optional output format.  `Except.error` models the synchronous `TypeError`
thrown before anything else happens — in particular before any request is
built or sent.  Otherwise the result is the state after the call together
with the outcome delivered on the callback channel: when the service is
already determined the command is dispatched directly; when it is not, a
resolution attempt runs first, and a resolution error is handed to the
response callback with no dispatch. -/
def runCommand (st : ClientState) (reg : Registry) (commandName : String)
    (paramsOpt : Option Params) (outputFormatOpt : Option String) :
    Except String (ClientState × RunOutcome) :=
  let params := paramsOpt.getD []
  match selectOutputFormat outputFormatOpt with
  | .error e => .error e
  | .ok outputFormat =>
    if st.epoServiceDetermined then
      .ok (st, runCommandInner st commandName outputFormat params)
    else
      match determineService st reg with
      | (st1, some e) => .ok (st1, .errorCallback e)
      | (st1, none) =>
        .ok (st1, runCommandInner st1 commandName outputFormat params)

/-! ### The `help` operation (lines 579-591) -/

/-- The underlying invocation `help` makes: `runCommand` with the fixed
`core.help` command name, no `params` entry in the options object, and the
object output format. -/
def help (st : ClientState) (reg : Registry) :
    Except String (ClientState × RunOutcome) :=
  runCommand st reg epoHelpCommand none (some OutputFormat.objectFormat)

/-- The response transformation `help` wraps around the caller's callback
(lines 583-585): the error is passed through unchanged, and a (possibly
empty, hence still truthy) response array is joined with the platform line
separator into a single string; a null response stays null. -/
def helpResponseTransform (eol : String) (error : Option String)
    (response : Option (List String)) : Option String × Option String :=
  (error,
    match response with
    | some lines => some (String.intercalate eol lines)
    | none => none)

/-! ### Threat event callback registration (lines 696-716)

The external fabric client's event-subscription capability (an external
collaborator, spec section 6) is modelled as the list of `(topic, handler)`
registrations it holds: `addEventCallback` appends a registration and
`removeEventCallback` removes the registrations whose topic and handler both
match (JavaScript function identity decides handler equality; a removal that
matches nothing is a no-op).  Callback functions are opaque, so they are
represented by values of an arbitrary type `F` with decidable identity. -/

/-- A handler value as seen by the fabric client: either a callback function
passed by the user, or the fresh anonymous closure `addThreatEventCallback`
creates around such a callback to decode event payloads before invoking it.
The two are never identical as JavaScript function objects, which the two
constructors capture. -/
inductive EventHandler (F : Type) where
  | callback (f : F)
  | threatEventDecoder (f : F)
deriving DecidableEq

/-- The fabric client's registration state. -/
abbrev EventSubs (F : Type) := List (String × EventHandler F)

/-- The external `addEventCallback` capability: register a handler for a
topic. -/
def addEventCallback [DecidableEq F] (subs : EventSubs F) (topic : String)
    (handler : EventHandler F) : EventSubs F :=
  subs ++ [(topic, handler)]

/-- The external `removeEventCallback` capability: deregister the previously
registered handler(s) identical to the one supplied, for the topic. -/
def removeEventCallback [DecidableEq F] (subs : EventSubs F) (topic : String)
    (handler : EventHandler F) : EventSubs F :=
  subs.filter (fun entry => decide (entry ≠ (topic, handler)))

/-- The topic defaulting `topic || EPO_THREAT_EVENT_TOPIC` shared by both
threat-event operations (a falsy topic argument selects the default). -/
def threatTopicOrDefault (topic : Option String) : String :=
  match topic with
  | some t => if t = "" then epoThreatEventTopic else t
  | none => epoThreatEventTopic

/-- `addThreatEventCallback` (lines 696-703): registers with the fabric
client a NEW anonymous function which decodes the event payload and then
invokes `threatEventResponseCallback` — not the callback itself. -/
def addThreatEventCallback [DecidableEq F] (subs : EventSubs F)
    (threatEventResponseCallback : F) (topic : Option String) : EventSubs F :=
  addEventCallback subs (threatTopicOrDefault topic)
    (.threatEventDecoder threatEventResponseCallback)

/-- `removeThreatEventCallback` (lines 712-716): asks the fabric client to
deregister `threatEventResponseCallback` itself. -/
def removeThreatEventCallback [DecidableEq F] (subs : EventSubs F)
    (threatEventResponseCallback : F) (topic : Option String) : EventSubs F :=
  removeEventCallback subs (threatTopicOrDefault topic)
    (.callback threatEventResponseCallback)

/-! ### Decidability helper -/

instance exceptDecidableEq {ε α : Type} [DecidableEq ε] [DecidableEq α] :
    DecidableEq (Except ε α) := fun a b =>
  match a, b with
  | .error e, .error f =>
    decidable_of_iff (e = f) ⟨fun h => h ▸ rfl, fun h => by injection h⟩
  | .error _, .ok _ => .isFalse (fun h => Except.noConfusion h)
  | .ok _, .error _ => .isFalse (fun h => Except.noConfusion h)
  | .ok x, .ok y =>
    decidable_of_iff (x = y) ⟨fun h => h ▸ rfl, fun h => by injection h⟩

/-! ### Concrete registry samples used by witnesses -/

/-- A remote-variant descriptor advertising the channel for identifier
`epo1`. -/
def sampleRemoteSvc : ServiceDescriptor :=
  ⟨none, ["/mcafee/service/epo/remote/epo1"]⟩

/-- A commands-variant descriptor whose metadata guid is `epo2`. -/
def sampleCommandsSvc : ServiceDescriptor :=
  ⟨some "epo2", []⟩

/-- A remote-variant descriptor advertising the bare remote lead as a
channel, whose extracted identifier is therefore the empty string. -/
def sampleBareChannelSvc : ServiceDescriptor :=
  ⟨none, ["/mcafee/service/epo/remote/"]⟩

/-- Shorthand for the deduplicated sorted union the merge in
`lookupEpoUniqueIdentifiers` produces from the two extracted identifier
lists. -/
def sortedMergedIds (rs cs : List ServiceDescriptor) : List String :=
  List.insertionSort stringLeRel
    ((extractRemoteIds rs).foldl pushUnique (extractCommandsIds cs))

/-- The ResolutionState invariant of the spec: a set resolved flag implies a
non-empty cached target identifier.  (The variant flag is a `Bool` field of
`ClientState`, so "variant is set" holds by typing.) -/
def resolvedImpliesId (st : ClientState) : Prop :=
  st.epoServiceDetermined = true → st.epoUniqueId ≠ ""


/-! ### Helper lemmas about identifier extraction and merging -/

theorem mem_pushUnique {l : List String} {x y : String} :
    y ∈ pushUnique l x ↔ y ∈ l ∨ y = x := by
  unfold pushUnique
  split
  · rename_i h
    replace h : x ∈ l := by simpa using h
    constructor
    · exact Or.inl
    · rintro (hy | rfl)
      · exact hy
      · exact h
  · simp

theorem nodup_pushUnique {l : List String} {x : String} (h : l.Nodup) :
    (pushUnique l x).Nodup := by
  unfold pushUnique
  split
  · exact h
  · rename_i hc
    replace hc : x ∉ l := by simpa using hc
    simpa [List.nodup_append] using ⟨h, hc⟩

theorem foldl_inv {α β : Type} {P : β → Prop} {f : β → α → β}
    (hf : ∀ b a, P b → P (f b a)) :
    ∀ (l : List α) (b : β), P b → P (l.foldl f b)
  | [], _, hb => hb
  | a :: l, b, hb => foldl_inv hf l (f b a) (hf b a hb)

theorem mem_foldl_pushUnique :
    ∀ (l acc : List String) (y : String),
      y ∈ l.foldl pushUnique acc ↔ y ∈ acc ∨ y ∈ l
  | [], acc, y => by simp
  | a :: l, acc, y => by
    rw [List.foldl_cons, mem_foldl_pushUnique l (pushUnique acc a) y,
      mem_pushUnique]
    simp only [List.mem_cons]
    tauto

theorem nodup_foldl_pushUnique {l acc : List String} (h : acc.Nodup) :
    (l.foldl pushUnique acc).Nodup :=
  foldl_inv (fun _ _ hb => nodup_pushUnique hb) l acc h

theorem nodup_extractCommandsIds (services : List ServiceDescriptor) :
    (extractCommandsIds services).Nodup := by
  refine foldl_inv (P := List.Nodup) (fun b svc hb => ?_) services [] List.nodup_nil
  cases svc.metaDataEpoGuid with
  | none => exact hb
  | some g =>
    simp only
    split
    · exact hb
    · exact nodup_pushUnique hb

theorem nodup_extractRemoteIds (services : List ServiceDescriptor) :
    (extractRemoteIds services).Nodup := by
  refine foldl_inv (P := List.Nodup) (fun b svc hb => ?_) services [] List.nodup_nil
  refine foldl_inv (P := List.Nodup) (fun ids ch hids => ?_) svc.requestChannels b hb
  split
  · exact nodup_pushUnique hids
  · exact hids

theorem not_mem_extractCommandsIds_empty (services : List ServiceDescriptor) :
    "" ∉ extractCommandsIds services := by
  refine foldl_inv (P := fun l => "" ∉ l) (fun b svc hb => ?_) services []
    (List.not_mem_nil "")
  cases hg : svc.metaDataEpoGuid with
  | none => exact hb
  | some g =>
    simp only
    split
    · exact hb
    · rename_i hne
      intro hmem
      rcases mem_pushUnique.mp hmem with h | h
      · exact hb h
      · exact hne h.symm

/-! ### The sort comparator is a total preorder -/

theorem lexLe_total : ∀ as bs : List Char, lexLe as bs = true ∨ lexLe bs as = true
  | [], _ => Or.inl rfl
  | _ :: _, [] => Or.inr rfl
  | a :: as, b :: bs => by
    rcases Nat.lt_trichotomy a.toNat b.toNat with h | h | h
    · left
      simp [lexLe, h]
    · rcases lexLe_total as bs with ih | ih
      · left
        simp [lexLe, h, ih]
      · right
        simp [lexLe, h.symm, ih]
    · right
      simp [lexLe, h]

theorem lexLe_trans :
    ∀ as bs cs : List Char,
      lexLe as bs = true → lexLe bs cs = true → lexLe as cs = true
  | [], _, _, _, _ => rfl
  | a :: as, [], cs, h1, _ => by simp [lexLe] at h1
  | a :: as, b :: bs, [], _, h2 => by simp [lexLe] at h2
  | a :: as, b :: bs, c :: cs, h1, h2 => by
    simp only [lexLe] at h1 h2 ⊢
    rcases Nat.lt_trichotomy a.toNat b.toNat with hab | hab | hab
    · rcases Nat.lt_trichotomy b.toNat c.toNat with hbc | hbc | hbc
      · simp [Nat.lt_trans hab hbc]
      · simp [hbc ▸ hab]
      · simp [hbc, Nat.not_lt_of_lt hbc] at h2
    · rcases Nat.lt_trichotomy b.toNat c.toNat with hbc | hbc | hbc
      · simp [hab ▸ hbc]
      · have hac : a.toNat = c.toNat := hab.trans hbc
        simp only [hab, lt_irrefl, if_false] at h1
        simp only [hbc, lt_irrefl, if_false] at h2
        simp [hac, lexLe_trans as bs cs h1 h2]
      · simp [hbc, Nat.not_lt_of_lt hbc] at h2
    · simp [hab, Nat.not_lt_of_lt hab] at h1

/-! ### First-dot replacement agrees with its specification reading -/

theorem replaceFirstChar_spec :
    ∀ l : List Char,
      replaceFirstChar '.' '/' l =
        if l.contains '.' then
          l.takeWhile (fun c => c ≠ '.') ++
            '/' :: ((l.dropWhile (fun c => c ≠ '.')).drop 1)
        else l
  | [] => rfl
  | c :: cs => by
    have ih := replaceFirstChar_spec cs
    by_cases hc : c = '.'
    · subst hc
      simp [replaceFirstChar, List.takeWhile_cons, List.dropWhile_cons]
    · have hmm : ((c :: cs).contains '.') = (cs.contains '.') := by
        simp [List.contains_cons, Ne.symm hc]
      rw [hmm]
      by_cases hmem : cs.contains '.'
      · rw [if_pos hmem] at ih ⊢
        simp only [replaceFirstChar, if_neg hc, ih]
        simp [List.takeWhile_cons, List.dropWhile_cons, hc]
      · rw [if_neg hmem] at ih ⊢
        simp [replaceFirstChar, if_neg hc, ih]

theorem replaceFirstDot_eq_spec (s : String) :
    replaceFirstDot s = specFirstDotToSlash s := by
  unfold replaceFirstDot specFirstDotToSlash
  rw [replaceFirstChar_spec s.data]
  split
  · rfl
  · rfl

/-! ### Claim C1 -/

/-- C1, counterexample: the claim says dispatching under the Commands variant
replaces EVERY `.` in the command name by `/`.  The source uses the
JavaScript `String.prototype.replace` with a plain string pattern, which
replaces only the first occurrence: for the command name `a.b.c` the request
goes to `.../remote/a/b.c`, not to `.../remote/a/b/c` as the claim
requires. -/
theorem c1_every_dot_counterexample :
    invokeEpoCommandsService ⟨"s", "epo1", true, true⟩ "a.b.c" "object" [] =
      .dispatched ⟨"/mcafee/service/epo/command/epo1/remote/a/b.c",
        .raw [], "object"⟩ ∧
    dxlEpoCommandsRequestLead ++ "epo1" ++ dxlEpoCommandsRequestCommandLead ++
        specEveryDotToSlash "a.b.c" =
      "/mcafee/service/epo/command/epo1/remote/a/b/c" ∧
    ("/mcafee/service/epo/command/epo1/remote/a/b.c" : String) ≠
      "/mcafee/service/epo/command/epo1/remote/a/b/c" := by
  decide

/-- C1, amended: for every identifier (any state whose cached id is truthy),
command name, output format and parameters, dispatching under the Commands
variant sends the request to the commands lead, the identifier, `/remote/`
and the command name with its FIRST `.` replaced by `/`, and the request body
is the parameters object itself with no wrapping envelope. -/
theorem c1_commands_dispatch (st : ClientState)
    (commandName outputFormat : String) (params : Params)
    (hid : st.epoUniqueId ≠ "") :
    invokeEpoCommandsService st commandName outputFormat params =
      .dispatched ⟨dxlEpoCommandsRequestLead ++ st.epoUniqueId ++
        dxlEpoCommandsRequestCommandLead ++ specFirstDotToSlash commandName,
        .raw params, outputFormat⟩ := by
  simp [invokeEpoCommandsService, invokeEpoService, hid,
    replaceFirstDot_eq_spec]

/-- C1, witness: the amended theorem applied to the spec's test fixture
`system.find` with identifier `epo1` yields the topic
`/mcafee/service/epo/command/epo1/remote/system/find`. -/
theorem c1_commands_dispatch_witness :
    invokeEpoCommandsService ⟨"s", "epo1", true, true⟩ "system.find"
        "object" [] =
      .dispatched ⟨dxlEpoCommandsRequestLead ++ "epo1" ++
        dxlEpoCommandsRequestCommandLead ++ specFirstDotToSlash "system.find",
        .raw [], "object"⟩ ∧
    dxlEpoCommandsRequestLead ++ "epo1" ++ dxlEpoCommandsRequestCommandLead ++
        specFirstDotToSlash "system.find" =
      "/mcafee/service/epo/command/epo1/remote/system/find" :=
  ⟨c1_commands_dispatch ⟨"s", "epo1", true, true⟩ "system.find" "object" []
      (by decide),
    by decide⟩

/-! ### Claim C5 -/

/-- C5: for every identifier (any state whose cached id is truthy), command
name, parameters and requested output representation, dispatching under the
Remote variant sends the request to the remote lead plus the identifier with
the envelope body carrying the command name, the fixed `json` output marker
and the parameters; the requested representation is retained only as the
response-decoding directive and never reaches the wire request. -/
theorem c5_remote_dispatch (st : ClientState)
    (commandName outputFormat : String) (params : Params)
    (hid : st.epoUniqueId ≠ "") :
    invokeEpoRemoteService st commandName outputFormat params =
      .dispatched ⟨dxlEpoRemoteRequestLead ++ st.epoUniqueId,
        .envelope commandName outputFormatJson params, outputFormat⟩ ∧
    outputFormatJson = "json" := by
  refine ⟨?_, rfl⟩
  simp [invokeEpoRemoteService, invokeEpoService, hid]

/-- C5, witness: the theorem applied to identifier `epo1`, command
`system.find` and the binary representation still produces the `json` output
marker in the envelope. -/
theorem c5_remote_dispatch_witness :
    invokeEpoRemoteService ⟨"s", "epo1", true, false⟩ "system.find"
        "binary" [("searchText", "x")] =
      .dispatched ⟨dxlEpoRemoteRequestLead ++ "epo1",
        .envelope "system.find" outputFormatJson [("searchText", "x")],
        "binary"⟩ ∧
    outputFormatJson = "json" :=
  c5_remote_dispatch ⟨"s", "epo1", true, false⟩ "system.find" "binary"
    [("searchText", "x")] (by decide)

/-! ### Claim C6 -/

/-- C6, counterexample: the claim says every supplied but unrecognized
`outputFormat` raises a synchronous `TypeError` and no request is issued.
The empty string is supplied and is not among the recognized values, yet it
is falsy, so the source skips validation, silently defaults to the object
format and sends the request. -/
theorem c6_unrecognized_counterexample :
    OutputFormat.recognized.contains "" = false ∧
    runCommand ⟨"s", "epo1", true, true⟩ ⟨.ok [], .ok []⟩ "system.find" none
        (some "") =
      .ok (⟨"s", "epo1", true, true⟩,
        .dispatched ⟨"/mcafee/service/epo/command/epo1/remote/system/find",
          .raw [], "object"⟩) := by
  decide

/-- C6, amended: a supplied NON-EMPTY `outputFormat` not among the
recognized values makes `runCommand` throw the `TypeError` synchronously
(the `Except.error` result carries no dispatched request, so no network
request is issued); an absent `outputFormat` — or the empty string, which
the source treats as absent — selects the object (Structured)
representation as the default. -/
theorem c6_output_format_validation (st : ClientState) (reg : Registry)
    (commandName : String) (paramsOpt : Option Params) (s : String)
    (hs : s ≠ "") (hrec : OutputFormat.recognized.contains s = false) :
    runCommand st reg commandName paramsOpt (some s) =
      .error ("Invalid output format: " ++ s) ∧
    selectOutputFormat none = .ok OutputFormat.objectFormat ∧
    selectOutputFormat (some "") = .ok OutputFormat.objectFormat := by
  refine ⟨?_, rfl, rfl⟩
  have hmem : s ∉ OutputFormat.recognized := by simpa using hrec
  simp [runCommand, selectOutputFormat, hs, OutputFormat.validate, hmem]

/-- C6, witness: the amended theorem applied to the format `bogus`. -/
theorem c6_output_format_validation_witness :
    runCommand ⟨"s", "epo1", true, true⟩ ⟨.ok [], .ok []⟩ "system.find" none
        (some "bogus") =
      .error ("Invalid output format: " ++ "bogus") ∧
    selectOutputFormat none = .ok OutputFormat.objectFormat ∧
    selectOutputFormat (some "") = .ok OutputFormat.objectFormat :=
  c6_output_format_validation ⟨"s", "epo1", true, true⟩ ⟨.ok [], .ok []⟩
    "system.find" none "bogus" (by decide) (by decide)

/-! ### Claim C9 -/

/-- C9: the claim says `removeThreatEventCallback(f, t)` after
`addThreatEventCallback(f, t)` deregisters the handler the add call
registered, restoring the prior subscription state.  The add call registers
a fresh anonymous decoding closure — not `f` — while the remove call asks
the fabric client to deregister `f` itself, which was never registered; the
removal therefore matches nothing and the decoding closure stays
registered.  Starting from no registrations, add-then-remove leaves the
wrapper in place instead of restoring the empty state. -/
theorem c9_add_remove_not_roundtrip :
    addThreatEventCallback ([] : EventSubs Nat) 0 none =
      [(epoThreatEventTopic, .threatEventDecoder 0)] ∧
    removeThreatEventCallback
        (addThreatEventCallback ([] : EventSubs Nat) 0 none) 0 none =
      [(epoThreatEventTopic, .threatEventDecoder 0)] ∧
    removeThreatEventCallback
        (addThreatEventCallback ([] : EventSubs Nat) 0 none) 0 none ≠
      ([] : EventSubs Nat) := by
  decide

/-! ### Claim C10 -/

/-- C10: `help` invokes exactly the `core.help` command with empty
parameters and the object (Structured) representation — visible in the
dispatched request of either variant — and its response transformation joins
a returned array of strings with the platform line separator into a single
string while passing any error of the underlying `runCommand` invocation
through unchanged. -/
theorem c10_help_invocation (st : ClientState) (reg : Registry)
    (eol e : String) (lines : List String)
    (hdet : st.epoServiceDetermined = true) (hid : st.epoUniqueId ≠ "") :
    (st.useEpoCommandsService = true → help st reg =
      .ok (st, .dispatched ⟨dxlEpoCommandsRequestLead ++ st.epoUniqueId ++
        dxlEpoCommandsRequestCommandLead ++ "core/help", .raw [],
        OutputFormat.objectFormat⟩)) ∧
    (st.useEpoCommandsService = false → help st reg =
      .ok (st, .dispatched ⟨dxlEpoRemoteRequestLead ++ st.epoUniqueId,
        .envelope epoHelpCommand outputFormatJson [],
        OutputFormat.objectFormat⟩)) ∧
    helpResponseTransform eol none (some lines) =
      (none, some (String.intercalate eol lines)) ∧
    helpResponseTransform eol (some e) none = (some e, none) := by
  have hch : replaceFirstDot epoHelpCommand = "core/help" := by decide
  refine ⟨fun hv => ?_, fun hv => ?_, rfl, rfl⟩ <;>
    simp [help, runCommand, selectOutputFormat, OutputFormat.validate,
      OutputFormat.recognized, OutputFormat.objectFormat,
      OutputFormat.binaryFormat, OutputFormat.stringFormat, hdet,
      runCommandInner, hv, invokeEpoCommandsService, invokeEpoRemoteService,
      invokeEpoService, hid, hch]

/-- C10, witness: the theorem applied to a resolved commands-variant client
with identifier `epo1`, and to the two-entry response of the spec's example
joined with a newline separator. -/
theorem c10_help_invocation_witness :
    ((ClientState.mk "s" "epo1" true true).useEpoCommandsService = true →
      help ⟨"s", "epo1", true, true⟩ ⟨.ok [], .ok []⟩ =
        .ok (⟨"s", "epo1", true, true⟩,
          .dispatched ⟨dxlEpoCommandsRequestLead ++ "epo1" ++
            dxlEpoCommandsRequestCommandLead ++ "core/help", .raw [],
            OutputFormat.objectFormat⟩)) ∧
    ((ClientState.mk "s" "epo1" true true).useEpoCommandsService = false →
      help ⟨"s", "epo1", true, true⟩ ⟨.ok [], .ok []⟩ =
        .ok (⟨"s", "epo1", true, true⟩,
          .dispatched ⟨dxlEpoRemoteRequestLead ++ "epo1",
            .envelope epoHelpCommand outputFormatJson [],
            OutputFormat.objectFormat⟩)) ∧
    helpResponseTransform "\n" none (some ["cmdA - desc", "cmdB - desc"]) =
      (none, some (String.intercalate "\n" ["cmdA - desc", "cmdB - desc"])) ∧
    helpResponseTransform "\n" (some "boom") none = (some "boom", none) :=
  c10_help_invocation ⟨"s", "epo1", true, true⟩ ⟨.ok [], .ok []⟩ "\n" "boom"
    ["cmdA - desc", "cmdB - desc"] rfl (by decide)

/-! ### Claim C3 -/

/-- C3: when both registry lookups succeed, `lookupEpoUniqueIdentifiers`
delivers no error, the deduplicated union of the remote-variant and
commands-variant identifier lists sorted ascending lexicographically — each
extracted identifier occurring exactly once (the list has no duplicates and
contains exactly the extracted identifiers) — and a variant hint that is
true exactly when the remote-variant identifier list is empty. -/
theorem c3_lookup_union_sorted (reg : Registry)
    (rs cs : List ServiceDescriptor) (x : String)
    (hr : reg.remote = .ok rs) (hc : reg.commands = .ok cs) :
    lookupEpoUniqueIdentifiers reg =
      (none, some (sortedMergedIds rs cs),
        some (extractRemoteIds rs).isEmpty) ∧
    List.Sorted stringLeRel (sortedMergedIds rs cs) ∧
    (sortedMergedIds rs cs).Nodup ∧
    (x ∈ sortedMergedIds rs cs ↔
      x ∈ extractRemoteIds rs ∨ x ∈ extractCommandsIds cs) ∧
    ((extractRemoteIds rs).isEmpty = true ↔ extractRemoteIds rs = []) := by
  obtain ⟨rem, com⟩ := reg
  simp only at hr hc
  subst hr hc
  haveI : IsTotal String stringLeRel :=
    ⟨fun a b => lexLe_total a.data b.data⟩
  haveI : IsTrans String stringLeRel :=
    ⟨fun a b c => lexLe_trans a.data b.data c.data⟩
  refine ⟨?_, List.sorted_insertionSort stringLeRel _, ?_, ?_,
    List.isEmpty_iff⟩
  · simp [lookupEpoUniqueIdentifiers, lookupEpoRemoteServiceUniqueIds,
      lookupEpoCommandsServiceUniqueIds, lookupIdsForServiceType,
      sortedMergedIds]
  · exact (List.perm_insertionSort stringLeRel _).symm.nodup
      (nodup_foldl_pushUnique (nodup_extractCommandsIds cs))
  · rw [sortedMergedIds, (List.perm_insertionSort stringLeRel _).mem_iff,
      mem_foldl_pushUnique]
    tauto

/-- C3, witness: for one remote service `epo1` and one commands service
`epo2` the merged list is the sorted two-element union with a remote-variant
hint. -/
theorem c3_lookup_union_sorted_witness :
    lookupEpoUniqueIdentifiers ⟨.ok [sampleRemoteSvc], .ok [sampleCommandsSvc]⟩ =
      (none, some (sortedMergedIds [sampleRemoteSvc] [sampleCommandsSvc]),
        some (extractRemoteIds [sampleRemoteSvc]).isEmpty) ∧
    List.Sorted stringLeRel
      (sortedMergedIds [sampleRemoteSvc] [sampleCommandsSvc]) ∧
    (sortedMergedIds [sampleRemoteSvc] [sampleCommandsSvc]).Nodup ∧
    ("epo1" ∈ sortedMergedIds [sampleRemoteSvc] [sampleCommandsSvc] ↔
      "epo1" ∈ extractRemoteIds [sampleRemoteSvc] ∨
        "epo1" ∈ extractCommandsIds [sampleCommandsSvc]) ∧
    ((extractRemoteIds [sampleRemoteSvc]).isEmpty = true ↔
      extractRemoteIds [sampleRemoteSvc] = []) ∧
    sortedMergedIds [sampleRemoteSvc] [sampleCommandsSvc] = ["epo1", "epo2"] :=
  ⟨(c3_lookup_union_sorted ⟨.ok [sampleRemoteSvc], .ok [sampleCommandsSvc]⟩
      [sampleRemoteSvc] [sampleCommandsSvc] "epo1" rfl rfl).1,
    (c3_lookup_union_sorted ⟨.ok [sampleRemoteSvc], .ok [sampleCommandsSvc]⟩
      [sampleRemoteSvc] [sampleCommandsSvc] "epo1" rfl rfl).2.1,
    (c3_lookup_union_sorted ⟨.ok [sampleRemoteSvc], .ok [sampleCommandsSvc]⟩
      [sampleRemoteSvc] [sampleCommandsSvc] "epo1" rfl rfl).2.2.1,
    (c3_lookup_union_sorted ⟨.ok [sampleRemoteSvc], .ok [sampleCommandsSvc]⟩
      [sampleRemoteSvc] [sampleCommandsSvc] "epo1" rfl rfl).2.2.2.1,
    (c3_lookup_union_sorted ⟨.ok [sampleRemoteSvc], .ok [sampleCommandsSvc]⟩
      [sampleRemoteSvc] [sampleCommandsSvc] "epo1" rfl rfl).2.2.2.2,
    by decide⟩

/-! ### Claim C4 -/

/-- C4: resolution by an explicitly supplied identifier consults the
remote-variant identifier list first — a hit resolves to the Remote variant
(second component `false`); otherwise a hit in the commands-variant list
resolves to the Commands variant (`true`); otherwise resolution fails with
the not-found message carrying the identifier. -/
theorem c4_resolve_by_identifier (reg : Registry)
    (rs cs : List ServiceDescriptor) (epoUniqueId : String)
    (hr : reg.remote = .ok rs) (hc : reg.commands = .ok cs) :
    (epoUniqueId ∈ extractRemoteIds rs →
      isEpoUniqueIdForCommandsService reg epoUniqueId = (none, false)) ∧
    (epoUniqueId ∉ extractRemoteIds rs →
      epoUniqueId ∈ extractCommandsIds cs →
      isEpoUniqueIdForCommandsService reg epoUniqueId = (none, true)) ∧
    (epoUniqueId ∉ extractRemoteIds rs →
      epoUniqueId ∉ extractCommandsIds cs →
      isEpoUniqueIdForCommandsService reg epoUniqueId =
        (some (idNotFoundMsg epoUniqueId), false)) ∧
    idNotFoundMsg epoUniqueId =
      "No ePO DXL services are registered with the DXL fabric for id: " ++
        epoUniqueId := by
  obtain ⟨rem, com⟩ := reg
  simp only at hr hc
  subst hr hc
  refine ⟨fun h1 => ?_, fun h1 h2 => ?_, fun h1 h2 => ?_, rfl⟩
  · simp [isEpoUniqueIdForCommandsService, lookupEpoRemoteServiceUniqueIds,
      lookupEpoCommandsServiceUniqueIds, lookupIdsForServiceType, h1]
  · simp [isEpoUniqueIdForCommandsService, lookupEpoRemoteServiceUniqueIds,
      lookupEpoCommandsServiceUniqueIds, lookupIdsForServiceType, h1, h2]
  · simp [isEpoUniqueIdForCommandsService, lookupEpoRemoteServiceUniqueIds,
      lookupEpoCommandsServiceUniqueIds, lookupIdsForServiceType, h1, h2]

/-- C4, witness: over a registry with remote identifier `epo1` and commands
identifier `epo2`, the three cases evaluated at `epo1`, `epo2` and `epoX`. -/
theorem c4_resolve_by_identifier_witness :
    isEpoUniqueIdForCommandsService
      ⟨.ok [sampleRemoteSvc], .ok [sampleCommandsSvc]⟩ "epo1" =
      (none, false) ∧
    isEpoUniqueIdForCommandsService
      ⟨.ok [sampleRemoteSvc], .ok [sampleCommandsSvc]⟩ "epo2" =
      (none, true) ∧
    isEpoUniqueIdForCommandsService
      ⟨.ok [sampleRemoteSvc], .ok [sampleCommandsSvc]⟩ "epoX" =
      (some (idNotFoundMsg "epoX"), false) :=
  ⟨(c4_resolve_by_identifier ⟨.ok [sampleRemoteSvc], .ok [sampleCommandsSvc]⟩
      [sampleRemoteSvc] [sampleCommandsSvc] "epo1" rfl rfl).1 (by decide),
    (c4_resolve_by_identifier ⟨.ok [sampleRemoteSvc], .ok [sampleCommandsSvc]⟩
      [sampleRemoteSvc] [sampleCommandsSvc] "epo2" rfl rfl).2.1 (by decide)
      (by decide),
    (c4_resolve_by_identifier ⟨.ok [sampleRemoteSvc], .ok [sampleCommandsSvc]⟩
      [sampleRemoteSvc] [sampleCommandsSvc] "epoX" rfl rfl).2.2.1 (by decide)
      (by decide)⟩

/-! ### Claim C2 -/

/-- C2: with no explicit constructed identifier, automatic resolution cases
on the merged identifier list: zero identifiers fail with the no-services
message and the pending command's callback receives that error with no
dispatch; exactly one identifier succeeds, caching that identifier, the
variant given by the variant hint and the determined flag; several
identifiers fail with the message listing all found identifiers, again with
no dispatch. -/
theorem c2_auto_resolution (st : ClientState) (reg : Registry)
    (ids : List String) (hint : Bool) (commandName : String)
    (paramsOpt : Option Params) (x y : String) (l : List String)
    (hdet : st.epoServiceDetermined = false) (hid : st.epoUniqueId = "")
    (h : lookupEpoUniqueIdentifiers reg = (none, some ids, some hint)) :
    (ids = [] → runCommand st reg commandName paramsOpt none =
      .ok ({ st with epoIdSearchStatus := noServicesMsg },
        .errorCallback noServicesMsg)) ∧
    (ids = [x] → determineService st reg =
      ({ st with
          epoUniqueId := x
          epoIdSearchStatus := "ePO id found"
          epoServiceDetermined := true
          useEpoCommandsService := hint },
        none)) ∧
    (ids = x :: y :: l → runCommand st reg commandName paramsOpt none =
      .ok ({ st with epoIdSearchStatus := multipleServicesMsg ids },
        .errorCallback (multipleServicesMsg ids))) := by
  refine ⟨fun h0 => ?_, fun h1 => ?_, fun h2 => ?_⟩
  · subst h0
    simp [runCommand, selectOutputFormat, hdet, determineService, hid,
      getEpoId, h]
  · subst h1
    simp [determineService, hid, getEpoId, h]
  · subst h2
    simp [runCommand, selectOutputFormat, hdet, determineService, hid,
      getEpoId, h]

/-- C2, witness: the three cases over concrete registries — empty fabric,
one commands service `epo2`, and one service of each variant. -/
theorem c2_auto_resolution_witness :
    runCommand (initClient "") ⟨.ok [], .ok []⟩ "x" none none =
      .ok ({ initClient "" with epoIdSearchStatus := noServicesMsg },
        .errorCallback noServicesMsg) ∧
    determineService (initClient "") ⟨.ok [], .ok [sampleCommandsSvc]⟩ =
      ({ initClient "" with
          epoUniqueId := "epo2"
          epoIdSearchStatus := "ePO id found"
          epoServiceDetermined := true
          useEpoCommandsService := true },
        none) ∧
    runCommand (initClient "") ⟨.ok [sampleRemoteSvc], .ok [sampleCommandsSvc]⟩
        "x" none none =
      .ok ({ initClient "" with
          epoIdSearchStatus := multipleServicesMsg ["epo1", "epo2"] },
        .errorCallback (multipleServicesMsg ["epo1", "epo2"])) :=
  ⟨(c2_auto_resolution (initClient "") ⟨.ok [], .ok []⟩ [] true "x" none
      "a" "b" [] rfl rfl (by decide)).1 rfl,
    (c2_auto_resolution (initClient "") ⟨.ok [], .ok [sampleCommandsSvc]⟩
      ["epo2"] true "x" none "epo2" "b" [] rfl rfl (by decide)).2.1 rfl,
    (c2_auto_resolution (initClient "")
      ⟨.ok [sampleRemoteSvc], .ok [sampleCommandsSvc]⟩ ["epo1", "epo2"]
      false "x" none "epo1" "epo2" [] rfl rfl (by decide)).2.2 rfl⟩

/-! ### Helper lemmas about resolution state -/

theorem getEpoId_determined (st : ClientState) (reg : Registry) :
    (getEpoId st reg).1.epoServiceDetermined = st.epoServiceDetermined := by
  unfold getEpoId
  rcases lookupEpoUniqueIdentifiers reg with ⟨e0, idsOpt, u⟩
  rcases idsOpt with _ | ids
  · rfl
  · rcases ids with _ | ⟨a, _ | ⟨b, l⟩⟩ <;> rfl

theorem determineService_error_determined (st st1 : ClientState)
    (reg : Registry) (e : String)
    (h : determineService st reg = (st1, some e)) :
    st1.epoServiceDetermined = st.epoServiceDetermined := by
  unfold determineService at h
  by_cases hid : st.epoUniqueId = ""
  · rw [if_pos hid] at h
    rcases hg : getEpoId st reg with ⟨stg, egOpt, ugOpt⟩
    rw [hg] at h
    rcases egOpt with _ | eg
    · exact absurd (congrArg Prod.snd h) (by simp)
    · have h1 : stg = st1 := congrArg Prod.fst h
      have h2 := getEpoId_determined st reg
      rw [hg] at h2
      rw [← h1, h2]
  · rw [if_neg hid] at h
    rcases hi : isEpoUniqueIdForCommandsService reg st.epoUniqueId
      with ⟨eiOpt, ui⟩
    rw [hi] at h
    rcases eiOpt with _ | ei
    · exact absurd (congrArg Prod.snd h) (by simp)
    · have h1 : st = st1 := congrArg Prod.fst h
      rw [← h1]

theorem lookup_not_none_none (reg : Registry) (u : Option Bool) :
    lookupEpoUniqueIdentifiers reg ≠ (none, none, u) := by
  rcases reg with ⟨rem, com⟩
  cases rem <;> cases com <;>
    simp [lookupEpoUniqueIdentifiers, lookupEpoRemoteServiceUniqueIds,
      lookupEpoCommandsServiceUniqueIds, lookupIdsForServiceType]

theorem lookup_mem (reg : Registry) (e0 : Option String) (ids : List String)
    (u : Option Bool) (x : String)
    (hl : lookupEpoUniqueIdentifiers reg = (e0, some ids, u))
    (hx : x ∈ ids) :
    (∃ rs, reg.remote = .ok rs ∧ x ∈ extractRemoteIds rs) ∨
    (∃ cs, reg.commands = .ok cs ∧ x ∈ extractCommandsIds cs) := by
  rcases reg with ⟨rem, com⟩
  cases rem <;> cases com <;>
    simp only [lookupEpoUniqueIdentifiers, lookupEpoRemoteServiceUniqueIds,
      lookupEpoCommandsServiceUniqueIds, lookupIdsForServiceType,
      Prod.mk.injEq] at hl
  case failure.failure => exact absurd hl.2.1 (by simp)
  case failure.malformed => exact absurd hl.2.1 (by simp)
  case failure.ok => exact absurd hl.2.1 (by simp)
  case malformed.failure => exact absurd hl.2.1 (by simp)
  case malformed.malformed =>
    obtain ⟨-, hids, -⟩ := hl
    replace hids := Option.some.inj hids
    subst hids
    simp at hx
  case malformed.ok cs =>
    obtain ⟨-, hids, -⟩ := hl
    replace hids := Option.some.inj hids
    subst hids
    rw [(List.perm_insertionSort stringLeRel _).mem_iff] at hx
    simp only [List.foldl_nil] at hx
    exact Or.inr ⟨cs, rfl, hx⟩
  case ok.failure => exact absurd hl.2.1 (by simp)
  case ok.malformed rs _ =>
    obtain ⟨-, hids, -⟩ := hl
    replace hids := Option.some.inj hids
    subst hids
    rw [(List.perm_insertionSort stringLeRel _).mem_iff,
      mem_foldl_pushUnique] at hx
    rcases hx with hx | hx
    · simp at hx
    · exact Or.inl ⟨rs, rfl, hx⟩
  case ok.ok rs cs =>
    obtain ⟨-, hids, -⟩ := hl
    replace hids := Option.some.inj hids
    subst hids
    rw [(List.perm_insertionSort stringLeRel _).mem_iff,
      mem_foldl_pushUnique] at hx
    rcases hx with hx | hx
    · exact Or.inr ⟨cs, rfl, hx⟩
    · exact Or.inl ⟨rs, rfl, hx⟩

/-! ### Claim C7 -/

/-- C7: a `runCommand` call on an unresolved facade whose triggered
resolution attempt fails delivers the resolution error to the response
callback with no dispatch, and leaves the resolved flag false, so a later
call performs a fresh resolution attempt: whenever that later attempt
succeeds (with a truthy identifier), the later call dispatches its
command. -/
theorem c7_resolution_failure_not_sticky (st st1 st2 : ClientState)
    (reg reg2 : Registry) (commandName commandName2 : String)
    (paramsOpt paramsOpt2 : Option Params) (outputFormatOpt : Option String)
    (outputFormat e : String)
    (hdet : st.epoServiceDetermined = false)
    (hfmt : selectOutputFormat outputFormatOpt = .ok outputFormat)
    (hres : determineService st reg = (st1, some e)) :
    runCommand st reg commandName paramsOpt outputFormatOpt =
      .ok (st1, .errorCallback e) ∧
    st1.epoServiceDetermined = false ∧
    (determineService st1 reg2 = (st2, none) → st2.epoUniqueId ≠ "" →
      runCommand st1 reg2 commandName2 paramsOpt2 none =
        .ok (st2, runCommandInner st2 commandName2 OutputFormat.objectFormat
          (paramsOpt2.getD [])) ∧
      (st2.useEpoCommandsService = true →
        runCommandInner st2 commandName2 OutputFormat.objectFormat
            (paramsOpt2.getD []) =
          .dispatched ⟨dxlEpoCommandsRequestLead ++ st2.epoUniqueId ++
            dxlEpoCommandsRequestCommandLead ++ replaceFirstDot commandName2,
            .raw (paramsOpt2.getD []), OutputFormat.objectFormat⟩) ∧
      (st2.useEpoCommandsService = false →
        runCommandInner st2 commandName2 OutputFormat.objectFormat
            (paramsOpt2.getD []) =
          .dispatched ⟨dxlEpoRemoteRequestLead ++ st2.epoUniqueId,
            .envelope commandName2 outputFormatJson (paramsOpt2.getD []),
            OutputFormat.objectFormat⟩)) := by
  have hd1 : st1.epoServiceDetermined = false :=
    (determineService_error_determined st st1 reg e hres).trans hdet
  refine ⟨?_, hd1, fun h2 hid2 => ⟨?_, fun hu => ?_, fun hu => ?_⟩⟩
  · simp [runCommand, hfmt, hdet, hres]
  · simp [runCommand, selectOutputFormat, hd1, h2]
  · simp [runCommandInner, hu, invokeEpoCommandsService, invokeEpoService,
      hid2]
  · simp [runCommandInner, hu, invokeEpoRemoteService, invokeEpoService,
      hid2]

/-- C7, witness: an empty fabric fails the first call's resolution with the
no-services error and leaves the facade unresolved; after one commands
service `epo2` appears, the next call resolves afresh and dispatches. -/
theorem c7_resolution_failure_not_sticky_witness :
    runCommand (initClient "") ⟨.ok [], .ok []⟩ "x" none none =
      .ok (⟨noServicesMsg, "", true, false⟩,
        .errorCallback noServicesMsg) ∧
    (ClientState.mk noServicesMsg "" true false).epoServiceDetermined =
      false ∧
    (determineService ⟨noServicesMsg, "", true, false⟩
        ⟨.ok [], .ok [sampleCommandsSvc]⟩ =
        (⟨"ePO id found", "epo2", true, true⟩, none) →
      (ClientState.mk "ePO id found" "epo2" true true).epoUniqueId ≠ "" →
      runCommand ⟨noServicesMsg, "", true, false⟩
          ⟨.ok [], .ok [sampleCommandsSvc]⟩ "y" none none =
        .ok (⟨"ePO id found", "epo2", true, true⟩,
          runCommandInner ⟨"ePO id found", "epo2", true, true⟩ "y"
            OutputFormat.objectFormat ((none : Option Params).getD [])) ∧
      ((ClientState.mk "ePO id found" "epo2" true true).useEpoCommandsService
          = true →
        runCommandInner ⟨"ePO id found", "epo2", true, true⟩ "y"
            OutputFormat.objectFormat ((none : Option Params).getD []) =
          .dispatched ⟨dxlEpoCommandsRequestLead ++ "epo2" ++
            dxlEpoCommandsRequestCommandLead ++ replaceFirstDot "y",
            .raw ((none : Option Params).getD []),
            OutputFormat.objectFormat⟩) ∧
      ((ClientState.mk "ePO id found" "epo2" true true).useEpoCommandsService
          = false →
        runCommandInner ⟨"ePO id found", "epo2", true, true⟩ "y"
            OutputFormat.objectFormat ((none : Option Params).getD []) =
          .dispatched ⟨dxlEpoRemoteRequestLead ++ "epo2",
            .envelope "y" outputFormatJson ((none : Option Params).getD []),
            OutputFormat.objectFormat⟩)) :=
  c7_resolution_failure_not_sticky (initClient "")
    ⟨noServicesMsg, "", true, false⟩ ⟨"ePO id found", "epo2", true, true⟩
    ⟨.ok [], .ok []⟩ ⟨.ok [], .ok [sampleCommandsSvc]⟩ "x" "y" none none
    none "object" noServicesMsg rfl rfl (by decide)

/-! ### Claim C8 -/

/-- C8, counterexample: the claim requires the invariant to hold for every
sequence of registry responses, including ones whose extracted identifiers
are empty strings.  A remote service advertising the bare remote lead as a
request channel yields the empty string as its extracted identifier; with it
as the single merged identifier, automatic resolution succeeds. The client
then has the resolved flag set while the cached target identifier is the
empty string — the invariant fails. -/
theorem c8_resolved_empty_id_counterexample :
    extractRemoteIds [sampleBareChannelSvc] = [""] ∧
    (determineService (initClient "")
        ⟨.ok [sampleBareChannelSvc], .ok []⟩).1.epoServiceDetermined =
      true ∧
    (determineService (initClient "")
        ⟨.ok [sampleBareChannelSvc], .ok []⟩).1.epoUniqueId = "" := by
  decide

/-- C8, amended: provided every identifier extracted from the remote-variant
registry response is non-empty (the commands variant can never yield an
empty identifier because the `epoGuid` truthiness test rejects it), every
resolution attempt and every `runCommand` call preserves the invariant that
a set resolved flag implies a non-empty cached target identifier. -/
theorem c8_resolution_invariant (st st1 st2 : ClientState) (reg : Registry)
    (eOpt : Option String) (commandName : String) (paramsOpt : Option Params)
    (outputFormatOpt : Option String) (outcome : RunOutcome)
    (hinv : resolvedImpliesId st)
    (hclean : ∀ rs, reg.remote = .ok rs → "" ∉ extractRemoteIds rs) :
    (determineService st reg = (st1, eOpt) → resolvedImpliesId st1) ∧
    (runCommand st reg commandName paramsOpt outputFormatOpt =
      .ok (st2, outcome) → resolvedImpliesId st2) := by
  have key : ∀ (sta : ClientState) (ea : Option String),
      determineService st reg = (sta, ea) → resolvedImpliesId sta := by
    intro sta ea h
    unfold determineService at h
    by_cases hid : st.epoUniqueId = ""
    · rw [if_pos hid] at h
      rcases hg : getEpoId st reg with ⟨stg, egOpt, ugOpt⟩
      rw [hg] at h
      rcases egOpt with _ | eg
      · have hsta : sta = { stg with
            epoServiceDetermined := true
            useEpoCommandsService := ugOpt.getD stg.useEpoCommandsService } :=
          (congrArg Prod.fst h).symm
        unfold getEpoId at hg
        rcases hl : lookupEpoUniqueIdentifiers reg with ⟨e0, idsOpt, u⟩
        rw [hl] at hg
        rcases idsOpt with _ | ids
        · have he0 : e0 = none := congrArg (fun p => p.2.1) hg
          subst he0
          exact absurd hl (lookup_not_none_none reg u)
        · rcases ids with _ | ⟨a, _ | ⟨b, tl⟩⟩
          · exact absurd (congrArg (fun p => p.2.1) hg) (by simp)
          · have hstg : stg.epoUniqueId = a :=
              (congrArg (fun p => ClientState.epoUniqueId p.1) hg).symm
            have hmem : a ∈ [a] := List.mem_singleton.mpr rfl
            intro _
            rw [hsta]
            show stg.epoUniqueId ≠ ""
            rw [hstg]
            rcases lookup_mem reg e0 [a] u a hl hmem with
              ⟨rs, hr, hamem⟩ | ⟨cs, hc, hamem⟩
            · intro hae
              exact hclean rs hr (hae ▸ hamem)
            · intro hae
              exact not_mem_extractCommandsIds_empty cs (hae ▸ hamem)
          · exact absurd (congrArg (fun p => p.2.1) hg) (by simp)
      · have hsta : stg = sta := congrArg Prod.fst h
        intro hdet1
        have hdg := getEpoId_determined st reg
        rw [hg] at hdg
        rw [← hsta] at hdet1
        rw [hdg] at hdet1
        exact absurd hid (hinv hdet1)
    · rw [if_neg hid] at h
      rcases hi : isEpoUniqueIdForCommandsService reg st.epoUniqueId
        with ⟨eiOpt, ui⟩
      rw [hi] at h
      rcases eiOpt with _ | ei
      · have hsta : sta = { st with
            epoServiceDetermined := true
            useEpoCommandsService := ui } := (congrArg Prod.fst h).symm
        intro _
        rw [hsta]
        exact hid
      · have hsta : st = sta := congrArg Prod.fst h
        intro hdet1
        rw [← hsta] at hdet1 ⊢
        exact hinv hdet1
  refine ⟨key st1 eOpt, fun h => ?_⟩
  unfold runCommand at h
  rcases hsel : selectOutputFormat outputFormatOpt with e | fmt
  · rw [hsel] at h
    exact absurd h (by simp)
  · rw [hsel] at h
    dsimp only at h
    by_cases hdet : st.epoServiceDetermined = true
    · rw [if_pos hdet] at h
      have hst : st = st2 := congrArg Prod.fst (Except.ok.inj h)
      rw [← hst]
      exact hinv
    · rw [if_neg hdet] at h
      rcases hd : determineService st reg with ⟨stns, ens⟩
      rw [hd] at h
      rcases ens with _ | ee
      · have hst : stns = st2 := congrArg Prod.fst (Except.ok.inj h)
        rw [← hst]
        exact key stns none hd
      · have hst : stns = st2 := congrArg Prod.fst (Except.ok.inj h)
        rw [← hst]
        exact key stns (some ee) hd

/-- C8, witness: the amended theorem applied to a fresh client over a
registry with one remote service `epo1` whose extracted identifier is
non-empty. -/
theorem c8_resolution_invariant_witness :
    (determineService (initClient "") ⟨.ok [sampleRemoteSvc], .ok []⟩ =
        (⟨"ePO id found", "epo1", false, true⟩, none) →
      resolvedImpliesId ⟨"ePO id found", "epo1", false, true⟩) ∧
    (runCommand (initClient "") ⟨.ok [sampleRemoteSvc], .ok []⟩ "x" none
        none =
      .ok (⟨"ePO id found", "epo1", false, true⟩,
        .dispatched ⟨dxlEpoRemoteRequestLead ++ "epo1",
          .envelope "x" outputFormatJson [], OutputFormat.objectFormat⟩) →
      resolvedImpliesId ⟨"ePO id found", "epo1", false, true⟩) :=
  c8_resolution_invariant (initClient "")
    ⟨"ePO id found", "epo1", false, true⟩
    ⟨"ePO id found", "epo1", false, true⟩
    ⟨.ok [sampleRemoteSvc], .ok []⟩ none "x" none none
    (.dispatched ⟨dxlEpoRemoteRequestLead ++ "epo1",
      .envelope "x" outputFormatJson [], OutputFormat.objectFormat⟩)
    (fun h => by simp [initClient] at h)
    (fun rs hr => by
      injection hr with h
      subst h
      decide)
